import Mathlib

/-!
Verification of the notification orchestration and reminder-scheduling
engine of the opencode-smart-voice-notify plugin (src/index.js), as a
shallow embedding.  Timestamps are dyadic rationals (milliseconds, the unit of
Date.now and setTimeout); JavaScript falsy-or-default expressions
(x || d) are modelled by jsOrQ / jsOrNat / jsStr; the JS Map holding
pending reminders is modelled as an association list with replace-on-set
semantics; setTimeout / clearTimeout are modelled by an explicit list of
armed timers plus a fresh-id counter.  Fallible asynchronous calls
(message generation via getSmartMessage / getPermissionMessage /
getQuestionMessage, and tts.speak) are modelled by an oracle environment
supplying each call result in order; every call site also emits an
action recording the call, so traces are observable.  Callbacks run to
completion in this model; interleaving with user events is captured by
quantifying over the machine state at the instant a timer fires.
-/

namespace SmartVoiceNotify

/-- Dyadic rationals n / 2^e.  JavaScript numbers are binary floating
point, so every value the source computes here (delays in seconds,
backoff powers of 1.5, millisecond timestamps) is exactly a dyadic
rational, and the additions and multiplications the source performs on
them are exact dyadic arithmetic.  All operations normalise, so values
produced by the arithmetic have a unique representation and structural
equality on them is numeric equality; all fields are kernel-computable
(no gcd), so closed runs evaluate by decide. -/
structure Dyadic where
  n : Int
  e : Nat
deriving Repr, DecidableEq

/-- Normalise n / 2^e by dividing out factors of two. -/
def Dyadic.norm : Int → Nat → Dyadic
  | n, 0 => ⟨n, 0⟩
  | n, e + 1 => if n % 2 = 0 then Dyadic.norm (n / 2) e else ⟨n, e + 1⟩

instance : OfNat Dyadic k := ⟨⟨(k : Int), 0⟩⟩

instance : Add Dyadic :=
  ⟨fun a b => Dyadic.norm (a.n * 2 ^ b.e + b.n * 2 ^ a.e) (a.e + b.e)⟩

instance : Mul Dyadic := ⟨fun a b => Dyadic.norm (a.n * b.n) (a.e + b.e)⟩

/-- Power with a natural exponent (Math.pow in the source is only
applied to natural follow-up counts). -/
def Dyadic.pow (a : Dyadic) : Nat → Dyadic
  | 0 => 1
  | k + 1 => Dyadic.pow a k * a

instance : Pow Dyadic Nat := ⟨Dyadic.pow⟩

instance : LT Dyadic := ⟨fun a b => a.n * 2 ^ b.e < b.n * 2 ^ a.e⟩

instance (a b : Dyadic) : Decidable (a < b) :=
  inferInstanceAs (Decidable (a.n * 2 ^ b.e < b.n * 2 ^ a.e))

/-- Numeric equality with zero (independent of the representation). -/
def Dyadic.isZero (a : Dyadic) : Bool := a.n == 0

/-- Rendering used only to build the synthetic placeholder ids
(unknown-Date.now in the source); the exact digits are irrelevant to
the model, only that the string depends on the time. -/
instance : ToString Dyadic := ⟨fun a => toString a.n ++ "e" ++ toString a.e⟩

/-- Timestamps and durations in milliseconds, as used by Date.now and
setTimeout in the source. -/
abbrev Time := Dyadic

/-- JavaScript falsy-default on numbers: x || d is d when x is 0. -/
def jsOrQ (x d : Time) : Time := if x.isZero then d else x

/-- JavaScript falsy-default on counters: x || d is d when x is 0. -/
def jsOrNat (x d : Nat) : Nat := if x = 0 then d else x

/-- JavaScript truthiness of an optional string: undefined and the empty
string are both falsy. -/
def jsStr : Option String → Option String
  | some s => if s = "" then none else some s
  | none => none

/-- Configuration fields of getTTSConfig consumed by index.js.  Numeric
fields use 0 for "not set" (JS falsy), matching the x || default reads
in the source. -/
structure Config where
  enableTTSReminder : Bool
  enableFollowUpReminders : Bool
  maxFollowUpReminders : Nat
  reminderBackoffMultiplier : Time
  ttsReminderDelaySeconds : Time
  permissionReminderDelaySeconds : Time
  questionReminderDelaySeconds : Time
  idleReminderDelaySeconds : Time
  notificationMode : String
  enableToast : Bool
  enableSound : Bool
  debugLog : Bool
  ttsEngine : String
  elevenLabsApiKey : String
  permissionBatchWindowMs : Time
  questionBatchWindowMs : Time
  permissionSound : String
  questionSound : String
  idleSound : String
deriving Repr, DecidableEq

/-- A pending TTS reminder registry entry (the object stored in the
pendingReminders Map in scheduleTTSReminder). -/
structure ReminderEntry where
  timeoutId : Nat
  scheduledAt : Time
  followUpCount : Nat
  itemCount : Nat
deriving Repr, DecidableEq

/-- Which callback an armed setTimeout will run. -/
inductive TimerKind where
  | initialReminder (type : String)
  | followUpReminder (type : String)
  | permissionBatch
  | questionBatch
deriving Repr, DecidableEq

/-- An armed setTimeout: its handle, its due time, and its callback. -/
structure Timer where
  id : Nat
  dueAt : Time
  kind : TimerKind
deriving Repr, DecidableEq

/-- An entry of the question batch: request id plus the number of
sub-questions carried by that request. -/
structure QEntry where
  id : String
  questionCount : Nat
deriving Repr, DecidableEq

/-- Observable actions emitted while handling events and timers.  The
genMsg action records a call to a message generator together with the
count it was asked to phrase, speak and playSound record rendering, and
logMsg records debugLog output. -/
inductive Action where
  | wakeMonitor
  | forceVolume
  | speak (msg : String)
  | playSound (file : String) (loops : Nat)
  | toast (msg : String) (variant : String)
  | genMsg (type : String) (isReminder : Bool) (count : Nat)
  | logMsg (msg : String)
deriving Repr, DecidableEq

/-- Rendering actions: everything a human can perceive (display wake,
volume change, speech, sound, toast).  Call records and log lines are
not renders. -/
def Action.isRender : Action → Bool
  | .wakeMonitor => true
  | .forceVolume => true
  | .speak _ => true
  | .playSound _ _ => true
  | .toast _ _ => true
  | .genMsg _ _ _ => false
  | .logMsg _ => false

/-- The rendering actions of a trace. -/
def renderActs (as : List Action) : List Action := as.filter Action.isRender

/-- Oracle environment: results of the fallible asynchronous calls
(message generation and tts.speak), consumed in call order. -/
abbrev Env := List (Except String String)

/-- Consume the next oracle result; an exhausted oracle yields success. -/
def envNext : Env → Except String String × Env
  | [] => (Except.ok "generated message", [])
  | r :: rs => (r, rs)

/-- The plugin closure state: every mutable variable of index.js that
the orchestrator reads or writes, plus the armed timers. -/
structure PState where
  pendingReminders : List (String × ReminderEntry)
  lastUserActivityTime : Time
  seenUserMessageIds : List String
  lastSessionIdleTime : Time
  activePermissionId : Option String
  pendingPermissionBatch : List String
  permissionBatchTimeout : Option Nat
  pendingQuestionBatch : List QEntry
  questionBatchTimeout : Option Nat
  activeQuestionId : Option String
  timers : List Timer
  nextTimerId : Nat
deriving Repr, DecidableEq

/-- Initial plugin state at load time now (lastUserActivityTime is
initialised to Date.now(), lastSessionIdleTime to 0). -/
def initState (now : Time) : PState :=
  ⟨[], now, [], 0, none, [], none, [], none, none, [], 0⟩

namespace RMap

/-- Lookup in the pendingReminders Map. -/
def get? (m : List (String × ReminderEntry)) (k : String) : Option ReminderEntry :=
  (m.find? (fun p => p.1 = k)).map (fun p => p.2)

/-- Map.has. -/
def has (m : List (String × ReminderEntry)) (k : String) : Bool :=
  (get? m k).isSome

/-- Map.set: replace the entry under an existing key in place (keeping
insertion order, as a JS Map does), else append at the end. -/
def set : List (String × ReminderEntry) → String → ReminderEntry →
    List (String × ReminderEntry)
  | [], k, v => [(k, v)]
  | p :: rest, k, v => if p.1 = k then (k, v) :: rest else p :: set rest k v

/-- Map.delete. -/
def del (m : List (String × ReminderEntry)) (k : String) :
    List (String × ReminderEntry) :=
  m.filter (fun p => p.1 ≠ k)

/-- The keys of the map. -/
def keys (m : List (String × ReminderEntry)) : List String :=
  m.map (fun p => p.1)

end RMap

/-- clearTimeout: disarm the timer with the given handle. -/
def clearTimeout (ts : List Timer) (tid : Nat) : List Timer :=
  ts.filter (fun t => t.id ≠ tid)

/-- debugLog: emits a log line only when debug logging is enabled. -/
def logA (cfg : Config) (msg : String) : List Action :=
  if cfg.debugLog then [Action.logMsg msg] else []

/-- showToast: emits a toast only when toasts are enabled (the source
catches all toast errors internally, so it never raises). -/
def showToastA (cfg : Config) (msg variant : String) : List Action :=
  if cfg.enableToast then [Action.toast msg variant] else []

/-- playSound: wakes the monitor, forces volume and plays the file; the
source catches all errors internally, so it never raises, and it does
nothing when sounds are disabled. -/
def playSoundA (cfg : Config) (file : String) (loops : Nat) : List Action :=
  if cfg.enableSound then
    [Action.wakeMonitor, Action.forceVolume, Action.playSound file loops]
  else []

/-- cancelPendingReminder: clear the timeout of the entry for the given
type and delete it from the registry; a no-op when absent. -/
def cancelPendingReminder (type : String) (st : PState) : PState :=
  match RMap.get? st.pendingReminders type with
  | none => st
  | some existing =>
      { st with
        timers := clearTimeout st.timers existing.timeoutId,
        pendingReminders := RMap.del st.pendingReminders type }

/-- cancelAllPendingReminders: clear every registered timeout and empty
the registry. -/
def cancelAllPendingReminders (st : PState) : PState :=
  { st with
    timers := st.pendingReminders.foldl (fun ts p => clearTimeout ts p.2.timeoutId) st.timers,
    pendingReminders := [] }

/-- The per-kind reminder delay in seconds read from config, with the
fallback chain of scheduleTTSReminder (permission and idle default to
30, question to 25; JS || treats 0 as unset). -/
def reminderDelaySeconds (cfg : Config) (type : String) : Time :=
  if type = "permission" then
    jsOrQ cfg.permissionReminderDelaySeconds (jsOrQ cfg.ttsReminderDelaySeconds 30)
  else if type = "question" then
    jsOrQ cfg.questionReminderDelaySeconds (jsOrQ cfg.ttsReminderDelaySeconds 25)
  else
    jsOrQ cfg.idleReminderDelaySeconds (jsOrQ cfg.ttsReminderDelaySeconds 30)

/-- The options object passed to scheduleTTSReminder; only the counts
matter to the registry (fallbackSound only affects speech fallback).
0 models an absent count. -/
structure ROptions where
  permissionCount : Nat
  questionCount : Nat
deriving Repr, DecidableEq

/-- Options with no counts supplied. -/
def noOpts : ROptions := ⟨0, 0⟩

/-- scheduleTTSReminder, synchronous part (index.js lines 206-231 and
338-347): cancel any existing reminder of this type, arm the delayed
timer and store the fresh registry entry with followUpCount 0 and the
item count from the options. -/
def scheduleTTSReminder (cfg : Config) (type : String) (_message : String)
    (opts : ROptions) (st : PState) (now : Time) : PState :=
  if ¬ cfg.enableTTSReminder then st
  else
    let delaySeconds := reminderDelaySeconds cfg type
    let delayMs := delaySeconds * 1000
    let st1 := cancelPendingReminder type st
    let itemCount := jsOrNat opts.permissionCount (jsOrNat opts.questionCount 1)
    let tid := st1.nextTimerId
    { st1 with
      timers := st1.timers ++ [⟨tid, now + delayMs, TimerKind.initialReminder type⟩],
      nextTimerId := tid + 1,
      pendingReminders := RMap.set st1.pendingReminders type ⟨tid, now, 0, itemCount⟩ }

/-- Result of running one timer callback or one event handler: the new
state, the emitted actions, the remaining oracle, and, when an
exception escaped the callback itself, the exception. -/
structure StepResult where
  st : PState
  acts : List Action
  env : Env
  raised : Option String
deriving Repr

/-- The try-block body of the initial reminder timer callback
(index.js lines 233-333): validate the entry against cancellation and
against user activity after scheduledAt, generate the reminder message,
render it, then either chain the single follow-up timer (when
follow-ups are enabled and followUpCount + 1 is below the configured
maximum) or drop the entry. -/
def fireInitialReminderBody (cfg : Config) (type : String) (st : PState) (now : Time)
    (env : Env) : StepResult :=
  match RMap.get? st.pendingReminders type with
    | none =>
        { st := st, acts := logA cfg "cancelled before firing", env := env, raised := none }
    | some reminder =>
        if st.lastUserActivityTime > reminder.scheduledAt then
          { st := { st with pendingReminders := RMap.del st.pendingReminders type },
            acts := logA cfg "skipped - user active since notification",
            env := env, raised := none }
        else
          let storedCount := jsOrNat reminder.itemCount 1
          let acts1 := logA cfg "firing reminder" ++ [Action.genMsg type true storedCount]
          let (r1, env1) := envNext env
          match r1 with
          | .error e => { st := st, acts := acts1, env := env1, raised := some e }
          | .ok msg =>
            let acts2 := acts1 ++
              (if cfg.ttsEngine = "elevenlabs" ∧
                  (cfg.elevenLabsApiKey = "" ∨ cfg.elevenLabsApiKey.trim = "") then
                showToastA cfg "ElevenLabs API Key missing! Falling back to Edge TTS." "warning"
              else [])
            let acts3 := acts2 ++ [Action.wakeMonitor, Action.forceVolume]
            let (r2, env2) := envNext env1
            match r2 with
            | .error e => { st := st, acts := acts3, env := env2, raised := some e }
            | .ok _ =>
              let acts4 := acts3 ++ [Action.speak msg]
              if ¬ RMap.has st.pendingReminders type then
                { st := st, acts := acts4 ++ logA cfg "cancelled during playback",
                  env := env2, raised := none }
              else
                let pr1 := RMap.del st.pendingReminders type
                if cfg.enableFollowUpReminders then
                  let followUpCount := reminder.followUpCount + 1
                  let maxFollowUps := jsOrNat cfg.maxFollowUpReminders 3
                  if followUpCount < maxFollowUps then
                    let backoffMultiplier := jsOrQ cfg.reminderBackoffMultiplier (⟨3, 1⟩ : Time)
                    let delaySeconds := reminderDelaySeconds cfg type
                    let nextDelay := delaySeconds * backoffMultiplier ^ followUpCount
                    let tid := st.nextTimerId
                    { st := { st with
                        pendingReminders :=
                          RMap.set pr1 type ⟨tid, now, followUpCount, storedCount⟩,
                        timers := st.timers ++
                          [⟨tid, now + nextDelay * 1000, TimerKind.followUpReminder type⟩],
                        nextTimerId := tid + 1 },
                      acts := acts4, env := env2, raised := none }
                  else
                    { st := { st with pendingReminders := pr1 },
                      acts := acts4, env := env2, raised := none }
                else
                  { st := { st with pendingReminders := pr1 },
                    acts := acts4, env := env2, raised := none }

/-- The initial reminder timer callback (index.js lines 232-338): the
try body above inside its catch, which logs the error, removes the
registry entry for this type and swallows the exception. -/
def fireInitialReminder (cfg : Config) (type : String) (st : PState) (now : Time)
    (env : Env) : StepResult :=
  let body := fireInitialReminderBody cfg type st now env
  match body.raised with
  | none => body
  | some e =>
      { st := { body.st with pendingReminders := RMap.del body.st.pendingReminders type },
        acts := body.acts ++ logA cfg ("scheduleTTSReminder error: " ++ e),
        env := body.env, raised := none }

/-- The follow-up reminder timer callback (index.js lines 298-324).
It re-validates the entry and user activity, regenerates the message,
renders it and deletes the entry.  It chains no further follow-up, and
it has no try/catch of its own: an error in message generation or
rendering escapes as an unhandled rejection and leaves the entry in the
registry. -/
def fireFollowUpReminder (_cfg : Config) (type : String) (st : PState) (_now : Time)
    (env : Env) : StepResult :=
  match RMap.get? st.pendingReminders type with
  | none =>
      { st := { st with pendingReminders := RMap.del st.pendingReminders type },
        acts := [], env := env, raised := none }
  | some followUpReminder =>
      if st.lastUserActivityTime > followUpReminder.scheduledAt then
        { st := { st with pendingReminders := RMap.del st.pendingReminders type },
          acts := [], env := env, raised := none }
      else
        let followUpStoredCount := jsOrNat followUpReminder.itemCount 1
        let acts1 := [Action.genMsg type true followUpStoredCount]
        let (r1, env1) := envNext env
        match r1 with
        | .error e => { st := st, acts := acts1, env := env1, raised := some e }
        | .ok msg =>
          let acts2 := acts1 ++ [Action.wakeMonitor, Action.forceVolume]
          let (r2, env2) := envNext env1
          match r2 with
          | .error e => { st := st, acts := acts2, env := env2, raised := some e }
          | .ok _ =>
            { st := { st with pendingReminders := RMap.del st.pendingReminders type },
              acts := acts2 ++ [Action.speak msg], env := env2, raised := none }

/-- The toast text of a permission batch, carrying the batch count. -/
def permissionToastMessage (n : Nat) : String :=
  if n = 1 then "Permission request requires your attention"
  else toString n ++ " permission requests require your attention"

/-- The toast text of a question batch, carrying the total question
count. -/
def questionToastMessage (n : Nat) : String :=
  if n = 1 then "The agent has a question for you"
  else "The agent has " ++ toString n ++ " questions for you"

/-- Total question count of a batch: the reduce of processQuestionBatch,
summing item.questionCount || 1 over the entries. -/
def questionBatchTotal (b : List QEntry) : Nat :=
  b.foldl (fun sum item => sum + jsOrNat item.questionCount 1) 0

/-- processPermissionBatch (index.js lines 494-561): drain the batch,
clear the window handle, no-op on an empty batch, set the active
permission marker to the first id, toast and play the sound, re-check
the marker, generate the count-aware reminder message, arm the
permission reminder, optionally speak, and finally cancel the reminder
if the marker was cleared while rendering. -/
def processPermissionBatch (cfg : Config) (st : PState) (now : Time)
    (env : Env) : StepResult :=
  let batch := st.pendingPermissionBatch
  let batchCount := batch.length
  let st1 := { st with pendingPermissionBatch := [], permissionBatchTimeout := none }
  if batchCount = 0 then
    { st := st1, acts := logA cfg "empty batch, skipping", env := env, raised := none }
  else
    let st2 := { st1 with activePermissionId := batch.head? }
    let acts1 := logA cfg "processing permission batch" ++
      showToastA cfg (permissionToastMessage batchCount) "warning"
    let soundLoops := if batchCount = 1 then 2 else min 3 batchCount
    let acts2 := acts1 ++ playSoundA cfg cfg.permissionSound soundLoops ++
      (if st2.pendingPermissionBatch.length > 0 then
        logA cfg "new permissions arrived during sound" else [])
    if st2.activePermissionId = none then
      { st := st2, acts := acts2 ++ logA cfg "user responded during sound - aborting",
        env := env, raised := none }
    else
      let (r1, env1) := envNext env
      let acts3 := acts2 ++ [Action.genMsg "permission" true batchCount]
      match r1 with
      | .error e => { st := st2, acts := acts3, env := env1, raised := some e }
      | .ok reminderMessage =>
        let st3 :=
          if cfg.enableTTSReminder ∧ reminderMessage ≠ "" then
            scheduleTTSReminder cfg "permission" reminderMessage ⟨batchCount, 0⟩ st2 now
          else st2
        if cfg.notificationMode = "tts-first" ∨ cfg.notificationMode = "both" then
          let (r2, env2) := envNext env1
          let acts4 := acts3 ++ [Action.genMsg "permission" false batchCount]
          match r2 with
          | .error e => { st := st3, acts := acts4, env := env2, raised := some e }
          | .ok ttsMessage =>
            let acts5 := acts4 ++ [Action.wakeMonitor, Action.forceVolume]
            let (r3, env3) := envNext env2
            match r3 with
            | .error e => { st := st3, acts := acts5, env := env3, raised := some e }
            | .ok _ =>
              let acts6 := acts5 ++ [Action.speak ttsMessage]
              if st3.activePermissionId = none then
                { st := cancelPendingReminder "permission" st3,
                  acts := acts6 ++ logA cfg "user responded during notification - cancelling reminder",
                  env := env3, raised := none }
              else
                { st := st3, acts := acts6, env := env3, raised := none }
        else
          if st3.activePermissionId = none then
            { st := cancelPendingReminder "permission" st3,
              acts := acts3 ++ logA cfg "user responded during notification - cancelling reminder",
              env := env1, raised := none }
          else
            { st := st3, acts := acts3, env := env1, raised := none }

/-- processQuestionBatch (index.js lines 570-639): as the permission
variant, but the carried count is the sum of per-request question
counts and the sound loop count is fixed at 2. -/
def processQuestionBatch (cfg : Config) (st : PState) (now : Time)
    (env : Env) : StepResult :=
  let batch := st.pendingQuestionBatch
  let st1 := { st with pendingQuestionBatch := [], questionBatchTimeout := none }
  if batch.length = 0 then
    { st := st1, acts := logA cfg "empty batch, skipping", env := env, raised := none }
  else
    let totalQuestionCount := questionBatchTotal batch
    let st2 := { st1 with activeQuestionId := (batch.head?).map (fun e => e.id) }
    let acts1 := logA cfg "processing question batch" ++
      showToastA cfg (questionToastMessage totalQuestionCount) "info"
    let acts2 := acts1 ++ playSoundA cfg cfg.questionSound 2 ++
      (if st2.pendingQuestionBatch.length > 0 then
        logA cfg "new questions arrived during sound" else [])
    if st2.activeQuestionId = none then
      { st := st2, acts := acts2 ++ logA cfg "user responded during sound - aborting",
        env := env, raised := none }
    else
      let (r1, env1) := envNext env
      let acts3 := acts2 ++ [Action.genMsg "question" true totalQuestionCount]
      match r1 with
      | .error e => { st := st2, acts := acts3, env := env1, raised := some e }
      | .ok reminderMessage =>
        let st3 :=
          if cfg.enableTTSReminder ∧ reminderMessage ≠ "" then
            scheduleTTSReminder cfg "question" reminderMessage ⟨0, totalQuestionCount⟩ st2 now
          else st2
        if cfg.notificationMode = "tts-first" ∨ cfg.notificationMode = "both" then
          let (r2, env2) := envNext env1
          let acts4 := acts3 ++ [Action.genMsg "question" false totalQuestionCount]
          match r2 with
          | .error e => { st := st3, acts := acts4, env := env2, raised := some e }
          | .ok ttsMessage =>
            let acts5 := acts4 ++ [Action.wakeMonitor, Action.forceVolume]
            let (r3, env3) := envNext env2
            match r3 with
            | .error e => { st := st3, acts := acts5, env := env3, raised := some e }
            | .ok _ =>
              let acts6 := acts5 ++ [Action.speak ttsMessage]
              if st3.activeQuestionId = none then
                { st := cancelPendingReminder "question" st3,
                  acts := acts6 ++ logA cfg "user responded during notification - cancelling reminder",
                  env := env3, raised := none }
              else
                { st := st3, acts := acts6, env := env3, raised := none }
        else
          if st3.activeQuestionId = none then
            { st := cancelPendingReminder "question" st3,
              acts := acts3 ++ logA cfg "user responded during notification - cancelling reminder",
              env := env1, raised := none }
          else
            { st := st3, acts := acts3, env := env1, raised := none }

/-- Inbound events consumed by the orchestrator, with the fields
index.js reads.  For session.idle the result of the sub-session lookup
client.session.get is part of the event (ok true means the session has
a parentID; an error is swallowed by the inner catch in the source). -/
inductive Event where
  | messageUpdated (id : Option String) (role : String) (createdSec : Option Time)
  | permissionReplied (permissionID : Option String) (requestID : Option String)
  | sessionCreated
  | sessionIdle (sessionID : Option String) (parentLookup : Except String Bool)
  | permissionAsked (id : Option String)
  | questionAsked (id : Option String) (questions : Option Nat)
  | questionReplied (requestID : Option String)
  | questionRejected (requestID : Option String)
  | otherEvent (type : String)

/-- The message.updated branch (index.js lines 664-699): a user message
with a fresh id is recorded as seen; only when it was created after the
last session.idle (or when no reminder is pending, the initial-message
shortcut) is it treated as activity, and only the after-idle case
advances lastUserActivityTime and cancels every pending reminder. -/
def handleMessageUpdated (cfg : Config) (st : PState) (id : Option String)
    (role : String) (createdSec : Option Time) (now : Time) : PState × List Action :=
  match jsStr id with
  | none => (st, [])
  | some messageId =>
    if role = "user" then
      let isNewMessage := ¬ st.seenUserMessageIds.contains messageId
      let isAfterIdle : Bool :=
        decide (st.lastSessionIdleTime > 0) &&
        (match createdSec with
         | some t => !t.isZero && decide (t * 1000 > st.lastSessionIdleTime)
         | none => false)
      if isNewMessage then
        let st1 := { st with seenUserMessageIds := st.seenUserMessageIds ++ [messageId] }
        if isAfterIdle || st.pendingReminders.isEmpty then
          if isAfterIdle then
            (cancelAllPendingReminders { st1 with lastUserActivityTime := now },
             logA cfg "NEW user message AFTER idle - cancelled pending reminders")
          else
            (st1, logA cfg "Initial user message before any idle - no reminders to cancel")
        else
          (st1, logA cfg "Ignored: user message created BEFORE session.idle")
      else
        (st, logA cfg "Ignored: update to existing user message - not new activity")
    else (st, [])

/-- The permission.replied branch (index.js lines 701-734): drop the id
from the pending batch, cancel the batch window when the batch became
empty, clear the active marker when it matches (the strict-equality
comparison with undefined in the source can never fire, as the marker
is always null or a string), record activity and cancel the permission
reminder. -/
def handlePermissionReplied (cfg : Config) (st : PState)
    (permissionID requestID : Option String) (now : Time) : PState × List Action :=
  let repliedPermissionId : Option String :=
    match jsStr permissionID with
    | some p => some p
    | none => jsStr requestID
  let (batch1, acts1) :=
    match repliedPermissionId with
    | some rid =>
      if st.pendingPermissionBatch.contains rid then
        (st.pendingPermissionBatch.filter (fun i => i ≠ rid),
         logA cfg "Permission replied: removed from pending batch")
      else (st.pendingPermissionBatch, [])
    | none => (st.pendingPermissionBatch, [])
  let st1 := { st with pendingPermissionBatch := batch1 }
  let st2 :=
    if batch1.length = 0 ∧ st1.permissionBatchTimeout.isSome then
      { st1 with
        timers := (match st1.permissionBatchTimeout with
                   | some tid => clearTimeout st1.timers tid
                   | none => st1.timers),
        permissionBatchTimeout := none }
    else st1
  let st3 :=
    { st2 with activePermissionId :=
        (match st2.activePermissionId, repliedPermissionId with
         | some a, some r => if a = r then none else some a
         | keep, _ => keep) }
  let st4 := { st3 with lastUserActivityTime := now }
  let st5 := cancelPendingReminder "permission" st4
  (st5, acts1 ++ logA cfg "Permission replied - cancelled permission reminder")

/-- The session.created branch (index.js lines 736-760): hard reset of
all tracking state, including both batch windows. -/
def handleSessionCreated (cfg : Config) (st : PState) (now : Time) :
    PState × List Action :=
  let st1 := { st with
    lastUserActivityTime := now,
    lastSessionIdleTime := 0,
    activePermissionId := none,
    activeQuestionId := none,
    seenUserMessageIds := [] }
  let st2 := cancelAllPendingReminders st1
  let st3 := { st2 with
    pendingPermissionBatch := [],
    timers := (match st2.permissionBatchTimeout with
               | some tid => clearTimeout st2.timers tid
               | none => st2.timers),
    permissionBatchTimeout := none }
  let st4 := { st3 with
    pendingQuestionBatch := [],
    timers := (match st3.questionBatchTimeout with
               | some tid => clearTimeout st3.timers tid
               | none => st3.timers),
    questionBatchTimeout := none }
  (st4, logA cfg "Session created - reset all tracking state")

/-- The session.idle branch (index.js lines 768-820): skip sub-sessions,
record the idle time, toast, play the idle sound outside tts-first
mode, abort if the user acted during the sound, then arm the idle
reminder and optionally speak. -/
def handleSessionIdle (cfg : Config) (st : PState) (sessionID : Option String)
    (parentLookup : Except String Bool) (now : Time) (env : Env) : StepResult :=
  match jsStr sessionID with
  | none => { st := st, acts := [], env := env, raised := none }
  | some _sid =>
    let isSub := match parentLookup with
      | .ok b => b
      | .error _ => false
    if isSub then
      { st := st, acts := logA cfg "session.idle skipped sub-session", env := env, raised := none }
    else
      let st1 := { st with lastSessionIdleTime := now }
      let acts1 := logA cfg "session.idle notifying" ++
        showToastA cfg "Agent has finished working" "success"
      let acts2 := acts1 ++
        (if cfg.notificationMode ≠ "tts-first" then playSoundA cfg cfg.idleSound 1 else [])
      if st1.lastUserActivityTime > st1.lastSessionIdleTime then
        { st := st1, acts := acts2 ++ logA cfg "session.idle user active during sound - aborting",
          env := env, raised := none }
      else
        let (r1, env1) := envNext env
        let acts3 := acts2 ++ [Action.genMsg "idle" true 1]
        match r1 with
        | .error e => { st := st1, acts := acts3, env := env1, raised := some e }
        | .ok reminderMessage =>
          let st2 :=
            if cfg.enableTTSReminder ∧ reminderMessage ≠ "" then
              scheduleTTSReminder cfg "idle" reminderMessage noOpts st1 now
            else st1
          if cfg.notificationMode = "tts-first" ∨ cfg.notificationMode = "both" then
            let (r2, env2) := envNext env1
            let acts4 := acts3 ++ [Action.genMsg "idle" false 1]
            match r2 with
            | .error e => { st := st2, acts := acts4, env := env2, raised := some e }
            | .ok ttsMessage =>
              let acts5 := acts4 ++ [Action.wakeMonitor, Action.forceVolume]
              let (r3, env3) := envNext env2
              match r3 with
              | .error e => { st := st2, acts := acts5, env := env3, raised := some e }
              | .ok _ =>
                { st := st2, acts := acts5 ++ [Action.speak ttsMessage],
                  env := env3, raised := none }
          else
            { st := st2, acts := acts3, env := env1, raised := none }

/-- The permission.updated / permission.asked branch (index.js lines
832-865): append the id to the batch unless already present (a missing
id gets a synthetic placeholder so it still counts), then reset the
debounce window timer. -/
def handlePermissionAsked (cfg : Config) (st : PState) (id : Option String)
    (now : Time) : PState × List Action :=
  let permissionId := jsStr id
  let (batch1, acts1) :=
    match permissionId with
    | some pid =>
      if ¬ st.pendingPermissionBatch.contains pid then
        (st.pendingPermissionBatch ++ [pid], logA cfg "added permission to batch")
      else (st.pendingPermissionBatch, [])
    | none =>
      (st.pendingPermissionBatch ++ ["unknown-" ++ toString now],
       logA cfg "permission ID missing - added unknown permission to batch")
  let st1 := { st with pendingPermissionBatch := batch1 }
  let st2 := { st1 with
    timers := (match st1.permissionBatchTimeout with
               | some tid => clearTimeout st1.timers tid
               | none => st1.timers) }
  let windowMs := jsOrQ cfg.permissionBatchWindowMs 800
  let tid := st2.nextTimerId
  ({ st2 with
      permissionBatchTimeout := some tid,
      timers := st2.timers ++ [⟨tid, now + windowMs, TimerKind.permissionBatch⟩],
      nextTimerId := tid + 1 },
   acts1 ++ logA cfg "permission batch window reset")

/-- The question.asked branch (index.js lines 876-913): as the
permission variant, but each entry also carries the length of the
questions array of that request (1 when the field is not an array). -/
def handleQuestionAsked (cfg : Config) (st : PState) (id : Option String)
    (questions : Option Nat) (now : Time) : PState × List Action :=
  let questionId := jsStr id
  let questionCount := match questions with
    | some n => n
    | none => 1
  let (batch1, acts1) :=
    match questionId with
    | some qid =>
      if ¬ st.pendingQuestionBatch.any (fun item => item.id = qid) then
        (st.pendingQuestionBatch ++ [QEntry.mk qid questionCount],
         logA cfg "added question to batch")
      else (st.pendingQuestionBatch, [])
    | none =>
      (st.pendingQuestionBatch ++ [QEntry.mk ("unknown-" ++ toString now) questionCount],
       logA cfg "question ID missing - added unknown question to batch")
  let st1 := { st with pendingQuestionBatch := batch1 }
  let st2 := { st1 with
    timers := (match st1.questionBatchTimeout with
               | some tid => clearTimeout st1.timers tid
               | none => st1.timers) }
  let windowMs := jsOrQ cfg.questionBatchWindowMs 800
  let tid := st2.nextTimerId
  ({ st2 with
      questionBatchTimeout := some tid,
      timers := st2.timers ++ [⟨tid, now + windowMs, TimerKind.questionBatch⟩],
      nextTimerId := tid + 1 },
   acts1 ++ logA cfg "question batch window reset")

/-- Remove the first batch entry with the given id (Array.splice at the
found index in the source). -/
def removeFirstQ : List QEntry → String → List QEntry
  | [], _ => []
  | item :: rest, rid => if item.id = rid then rest else item :: removeFirstQ rest rid

/-- The shared body of the question.replied and question.rejected
branches (index.js lines 916-943 and 946-972, which coincide except for
log text): drop the entry from the pending batch, cancel the window
when the batch became empty, clear the active marker when it matches,
record activity and cancel the question reminder. -/
def handleQuestionResolved (cfg : Config) (st : PState) (requestID : Option String)
    (now : Time) : PState × List Action :=
  let repliedQuestionId := jsStr requestID
  let (batch1, acts1) :=
    match repliedQuestionId with
    | some rid =>
      if st.pendingQuestionBatch.any (fun item => item.id = rid) then
        (removeFirstQ st.pendingQuestionBatch rid,
         logA cfg "Question resolved: removed from pending batch")
      else (st.pendingQuestionBatch, [])
    | none => (st.pendingQuestionBatch, [])
  let st1 := { st with pendingQuestionBatch := batch1 }
  let st2 :=
    if batch1.length = 0 ∧ st1.questionBatchTimeout.isSome then
      { st1 with
        timers := (match st1.questionBatchTimeout with
                   | some tid => clearTimeout st1.timers tid
                   | none => st1.timers),
        questionBatchTimeout := none }
    else st1
  let st3 :=
    { st2 with activeQuestionId :=
        (match st2.activeQuestionId, repliedQuestionId with
         | some a, some r => if a = r then none else some a
         | keep, _ => keep) }
  let st4 := { st3 with lastUserActivityTime := now }
  let st5 := cancelPendingReminder "question" st4
  (st5, acts1 ++ logA cfg "Question resolved - cancelled question reminder")

/-- The body of the event handler (index.js lines 643-972), dispatching
on the event type; only the session.idle branch performs fallible
calls. -/
def handleEventBody (cfg : Config) (st : PState) (ev : Event) (now : Time)
    (env : Env) : StepResult :=
  match ev with
  | .messageUpdated id role createdSec =>
      let (st1, acts) := handleMessageUpdated cfg st id role createdSec now
      { st := st1, acts := acts, env := env, raised := none }
  | .permissionReplied pID rID =>
      let (st1, acts) := handlePermissionReplied cfg st pID rID now
      { st := st1, acts := acts, env := env, raised := none }
  | .sessionCreated =>
      let (st1, acts) := handleSessionCreated cfg st now
      { st := st1, acts := acts, env := env, raised := none }
  | .sessionIdle sid lookup => handleSessionIdle cfg st sid lookup now env
  | .permissionAsked id =>
      let (st1, acts) := handlePermissionAsked cfg st id now
      { st := st1, acts := acts, env := env, raised := none }
  | .questionAsked id qs =>
      let (st1, acts) := handleQuestionAsked cfg st id qs now
      { st := st1, acts := acts, env := env, raised := none }
  | .questionReplied rid =>
      let (st1, acts) := handleQuestionResolved cfg st rid now
      { st := st1, acts := acts, env := env, raised := none }
  | .questionRejected rid =>
      let (st1, acts) := handleQuestionResolved cfg st rid now
      { st := st1, acts := acts, env := env, raised := none }
  | .otherEvent _ => { st := st, acts := [], env := env, raised := none }

/-- The event entry point (index.js lines 642-976): the whole body runs
inside a try/catch whose catch only writes a debug log line, so no
exception escapes the handler. -/
def handleEvent (cfg : Config) (st : PState) (ev : Event) (now : Time)
    (env : Env) : StepResult :=
  let r := handleEventBody cfg st ev now env
  match r.raised with
  | none => r
  | some e =>
      { st := r.st, acts := r.acts ++ logA cfg ("event handler error: " ++ e),
        env := r.env, raised := none }

/-- Dispatch a due timer to its callback.  The two batch window
callbacks are wrapped in try/catch in the source (index.js lines
856-862 and 904-910); the follow-up reminder callback is not. -/
def fireTimer (cfg : Config) (k : TimerKind) (st : PState) (now : Time)
    (env : Env) : StepResult :=
  match k with
  | .initialReminder type => fireInitialReminder cfg type st now env
  | .followUpReminder type => fireFollowUpReminder cfg type st now env
  | .permissionBatch =>
      let r := processPermissionBatch cfg st now env
      match r.raised with
      | none => r
      | some e =>
          { st := r.st, acts := r.acts ++ logA cfg ("processPermissionBatch error: " ++ e),
            env := r.env, raised := none }
  | .questionBatch =>
      let r := processQuestionBatch cfg st now env
      match r.raised with
      | none => r
      | some e =>
          { st := r.st, acts := r.acts ++ logA cfg ("processQuestionBatch error: " ++ e),
            env := r.env, raised := none }

/-- The earliest armed timer (ties resolved in arming order, as the
event loop fires equal deadlines in scheduling order). -/
def earliestTimer : List Timer → Option Timer
  | [] => none
  | t :: ts =>
    match earliestTimer ts with
    | none => some t
    | some u => if u.dueAt < t.dueAt then some u else some t

/-- Fire armed timers in due order until none remain (or fuel runs
out), collecting the timestamped action trace. -/
def runTimers (cfg : Config) (fuel : Nat) (st : PState) (env : Env) :
    List (Time × Action) :=
  match fuel with
  | 0 => []
  | Nat.succ fuel =>
    match earliestTimer st.timers with
    | none => []
    | some t =>
      let st1 := { st with timers := clearTimeout st.timers t.id }
      let r := fireTimer cfg t.kind st1 t.dueAt env
      r.acts.map (fun a => (t.dueAt, a)) ++ runTimers cfg fuel r.st r.env

/-- The timestamps at which speech is rendered in a trace. -/
def speakTimes (tr : List (Time × Action)) : List Time :=
  (tr.filter (fun p => match p.2 with | Action.speak _ => true | _ => false)).map
    (fun p => p.1)

/-- As runTimers, but returning the final machine state instead of the
trace. -/
def runTimersFinal (cfg : Config) (fuel : Nat) (st : PState) (env : Env) : PState :=
  match fuel with
  | 0 => st
  | Nat.succ fuel =>
    match earliestTimer st.timers with
    | none => st
    | some t =>
      let st1 := { st with timers := clearTimeout st.timers t.id }
      let r := fireTimer cfg t.kind st1 t.dueAt env
      runTimersFinal cfg fuel r.st r.env

/-- A configuration with every notification feature enabled and every
numeric knob left at 0 (unset, so the source defaults apply: 30s
reminder delay, 1.5 backoff, 800ms batch windows) except
maxFollowUpReminders, set to its documented default of 3. -/
def testCfg : Config :=
  { enableTTSReminder := true
    enableFollowUpReminders := true
    maxFollowUpReminders := 3
    reminderBackoffMultiplier := 0
    ttsReminderDelaySeconds := 0
    permissionReminderDelaySeconds := 0
    questionReminderDelaySeconds := 0
    idleReminderDelaySeconds := 0
    notificationMode := "sound-first"
    enableToast := true
    enableSound := true
    debugLog := false
    ttsEngine := "edge"
    elevenLabsApiKey := "key"
    permissionBatchWindowMs := 0
    questionBatchWindowMs := 0
    permissionSound := "permission.wav"
    questionSound := "question.wav"
    idleSound := "idle.wav" }

/-- The state after the C1 scenario prefix: plugin loaded at t = 0 and
session.idle of a top-level session handled at t = 0 with no user
activity; the idle reminder is armed for t = 30000 ms. -/
def c1State : PState :=
  (handleEvent testCfg (initState 0) (Event.sessionIdle (some "s1") (Except.ok false)) 0 []).st

/-- A state whose permission reminder entry is armed and due, with a
follow-up timer pending: used as the failing input for the error
handling of the follow-up callback. -/
def c7State : PState :=
  { pendingReminders := [("permission", ⟨0, 0, 1, 2⟩)],
    lastUserActivityTime := 0, seenUserMessageIds := [], lastSessionIdleTime := 0,
    activePermissionId := none, pendingPermissionBatch := [], permissionBatchTimeout := none,
    pendingQuestionBatch := [], questionBatchTimeout := none, activeQuestionId := none,
    timers := [⟨0, 45000, TimerKind.followUpReminder "permission"⟩], nextTimerId := 1 }

/-- The C5 scenario: question q1 with 1 sub-question asked at t = 0,
question q2 with 3 sub-questions asked at t = 300 ms, q1 replied at
t = 500 ms; the remaining batch window expires at t = 1100 ms. -/
def c5State : PState :=
  (handleEvent testCfg
    (handleEvent testCfg
      (handleEvent testCfg (initState 0)
        (Event.questionAsked (some "q1") (some 1)) 0 []).st
      (Event.questionAsked (some "q2") (some 3)) 300 []).st
    (Event.questionReplied (some "q1")) 500 []).st

/-- Registry key uniqueness: the invariant of claim C6. -/
def keysNodup (m : List (String × ReminderEntry)) : Prop :=
  (RMap.keys m).Nodup

/-- The mutation surface of the reminder registry: the operations the
source ever performs on pendingReminders. -/
inductive ReminderOp where
  | arm (type : String) (message : String) (opts : ROptions) (now : Time)
  | cancel (type : String)
  | cancelAll
  | fireInit (type : String) (now : Time) (env : Env)
  | fireFollow (type : String) (now : Time) (env : Env)

/-- Apply one registry operation. -/
def applyReminderOp (cfg : Config) (st : PState) : ReminderOp → PState
  | .arm t msg o n => scheduleTTSReminder cfg t msg o st n
  | .cancel t => cancelPendingReminder t st
  | .cancelAll => cancelAllPendingReminders st
  | .fireInit t n e => (fireInitialReminder cfg t st n e).st
  | .fireFollow t n e => (fireFollowUpReminder cfg t st n e).st

/-- Apply a sequence of registry operations. -/
def applyReminderOps (cfg : Config) (ops : List ReminderOp) (st : PState) : PState :=
  ops.foldl (applyReminderOp cfg) st

/-- Toast classification used to count batch notifications. -/
def Action.isToast : Action → Bool
  | .toast _ _ => true
  | _ => false

/-- The toast actions of a trace. -/
def toasts (as : List Action) : List Action := as.filter Action.isToast

/-- Handle a sequence of permission.asked events for the given ids, all
within one debounce window. -/
def foldPermissionAsked (cfg : Config) (st : PState) (pids : List String) (now : Time)
    (env : Env) : PState :=
  pids.foldl (fun s pid => (handleEvent cfg s (Event.permissionAsked (some pid)) now env).st) st

/-- A state with an armed idle reminder whose scheduledAt (10) is
before the last user activity (20): the reminder must not render. -/
def c2WState : PState :=
  { pendingReminders := [("idle", ⟨0, 10, 0, 1⟩)],
    lastUserActivityTime := 20, seenUserMessageIds := [], lastSessionIdleTime := 0,
    activePermissionId := none, pendingPermissionBatch := [], permissionBatchTimeout := none,
    pendingQuestionBatch := [], questionBatchTimeout := none, activeQuestionId := none,
    timers := [], nextTimerId := 1 }

/-- A state whose permission batch holds the single id x with its
window timer armed: a reply to x empties the batch and cancels the
window. -/
def c4WState : PState :=
  { pendingReminders := [], lastUserActivityTime := 0, seenUserMessageIds := [],
    lastSessionIdleTime := 0, activePermissionId := some "x",
    pendingPermissionBatch := ["x"], permissionBatchTimeout := some 5,
    pendingQuestionBatch := [], questionBatchTimeout := none, activeQuestionId := none,
    timers := [⟨5, 800, TimerKind.permissionBatch⟩], nextTimerId := 6 }

/-- A post-idle state that has already seen message m1 and has an idle
reminder armed: an edit of m1 must change nothing. -/
def c9WState : PState :=
  { pendingReminders := [("idle", ⟨0, 10, 0, 1⟩)],
    lastUserActivityTime := 5, seenUserMessageIds := ["m1"], lastSessionIdleTime := 8,
    activePermissionId := none, pendingPermissionBatch := [], permissionBatchTimeout := none,
    pendingQuestionBatch := [], questionBatchTimeout := none, activeQuestionId := none,
    timers := [⟨0, 30008, TimerKind.initialReminder "idle"⟩], nextTimerId := 1 }

/-- A post-idle state with both an armed idle reminder and a permission
batch inside its window: a fresh post-idle user message cancels the
reminder but leaves the batch and its window untouched. -/
def c10WState : PState :=
  { pendingReminders := [("idle", ⟨1, 40, 0, 1⟩)], lastUserActivityTime := 10,
    seenUserMessageIds := [], lastSessionIdleTime := 50, activePermissionId := none,
    pendingPermissionBatch := ["p"], permissionBatchTimeout := some 2,
    pendingQuestionBatch := [], questionBatchTimeout := none, activeQuestionId := none,
    timers := [⟨1, 30040, TimerKind.initialReminder "idle"⟩,
               ⟨2, 850, TimerKind.permissionBatch⟩],
    nextTimerId := 3 }

theorem renderActs_logA (cfg : Config) (m : String) : renderActs (logA cfg m) = [] := by
  unfold renderActs logA
  split <;> simp [Action.isRender]

theorem renderActs_append (as bs : List Action) :
    renderActs (as ++ bs) = renderActs as ++ renderActs bs := by
  unfold renderActs
  exact List.filter_append as bs

theorem RMap.get?_nil (k : String) : RMap.get? [] k = none := rfl

theorem RMap.get?_cons (p : String × ReminderEntry)
    (l : List (String × ReminderEntry)) (k : String) :
    RMap.get? (p :: l) k = if p.1 = k then some p.2 else RMap.get? l k := by
  by_cases hp : p.1 = k <;> simp [RMap.get?, List.find?, hp]

theorem RMap.get?_del_self (m : List (String × ReminderEntry)) (k : String) :
    RMap.get? (RMap.del m k) k = none := by
  unfold RMap.get? RMap.del
  rw [Option.map_eq_none', List.find?_eq_none]
  intro x hx
  simp only [List.mem_filter] at hx
  simpa using hx.2

theorem RMap.get?_set_self (m : List (String × ReminderEntry)) (k : String)
    (v : ReminderEntry) : RMap.get? (RMap.set m k v) k = some v := by
  induction m with
  | nil => simp [RMap.set, RMap.get?_cons, RMap.get?_nil]
  | cons p rest ih =>
    by_cases hp : p.1 = k
    · simp [RMap.set, hp, RMap.get?_cons]
    · simp [RMap.set, hp, RMap.get?_cons, ih]

theorem RMap.keys_set (m : List (String × ReminderEntry)) (k : String)
    (v : ReminderEntry) :
    RMap.keys (RMap.set m k v) =
      if m.any (fun p => p.1 = k) then RMap.keys m else RMap.keys m ++ [k] := by
  induction m with
  | nil => simp [RMap.keys, RMap.set]
  | cons p rest ih =>
    by_cases hp : p.1 = k
    · simp [RMap.set, hp, RMap.keys, List.any_cons]
    · simp only [RMap.set, hp, if_false, RMap.keys, List.map_cons, List.any_cons]
      rw [show RMap.keys (RMap.set rest k v) =
          List.map (fun p => p.1) (RMap.set rest k v) from rfl] at ih
      rw [show RMap.keys rest = List.map (fun p => p.1) rest from rfl] at ih
      by_cases hr : rest.any (fun q => q.1 = k)
      · simp [hr, hp, ih]
      · simp [hr, hp, ih]

theorem keysNodup_set (m : List (String × ReminderEntry)) (k : String)
    (v : ReminderEntry) (h : keysNodup m) : keysNodup (RMap.set m k v) := by
  unfold keysNodup
  rw [RMap.keys_set]
  by_cases ha : m.any (fun p => p.1 = k)
  · simpa [ha] using h
  · have hk : k ∉ RMap.keys m := by
      intro hmem
      rcases List.mem_map.mp hmem with ⟨p, hp, hpk⟩
      exact ha (List.any_eq_true.mpr ⟨p, hp, by simpa using hpk⟩)
    simp only [ha, if_false]
    simpa [List.nodup_append] using And.intro h hk

theorem keysNodup_del (m : List (String × ReminderEntry)) (k : String)
    (h : keysNodup m) : keysNodup (RMap.del m k) := by
  unfold keysNodup RMap.keys at *
  exact List.Nodup.sublist (List.Sublist.map _ (List.filter_sublist m)) h

theorem renderActs_nil : renderActs [] = [] := rfl

theorem toasts_nil : toasts [] = [] := rfl

theorem toasts_cons (a : Action) (l : List Action) :
    toasts (a :: l) = if a.isToast then a :: toasts l else toasts l := by
  simp [toasts, List.filter_cons]

theorem toasts_append (as bs : List Action) :
    toasts (as ++ bs) = toasts as ++ toasts bs := List.filter_append as bs

theorem toasts_logA (cfg : Config) (m : String) : toasts (logA cfg m) = [] := by
  unfold logA; split <;> simp [toasts, Action.isToast]

theorem toasts_showToastA (cfg : Config) (m v : String) :
    toasts (showToastA cfg m v) = if cfg.enableToast then [Action.toast m v] else [] := by
  unfold showToastA; split <;> simp [toasts, Action.isToast]

theorem toasts_playSoundA (cfg : Config) (f : String) (lp : Nat) :
    toasts (playSoundA cfg f lp) = [] := by
  unfold playSoundA; split <;> simp [toasts, Action.isToast]

theorem keysNodup_cancel (type : String) (st : PState) (h : keysNodup st.pendingReminders) :
    keysNodup (cancelPendingReminder type st).pendingReminders := by
  unfold cancelPendingReminder
  split
  · exact h
  · simpa using keysNodup_del _ _ h

theorem keysNodup_cancelAll (st : PState) :
    keysNodup (cancelAllPendingReminders st).pendingReminders := by
  simp [cancelAllPendingReminders, keysNodup, RMap.keys]

theorem keysNodup_schedule (cfg : Config) (type msg : String) (opts : ROptions)
    (st : PState) (now : Time) (h : keysNodup st.pendingReminders) :
    keysNodup (scheduleTTSReminder cfg type msg opts st now).pendingReminders := by
  unfold scheduleTTSReminder
  split
  · exact h
  · simpa using keysNodup_set _ _ _ (keysNodup_cancel type st h)

theorem keysNodup_fireInitBody (cfg : Config) (type : String) (st : PState)
    (now : Time) (env : Env) (h : keysNodup st.pendingReminders) :
    keysNodup (fireInitialReminderBody cfg type st now env).st.pendingReminders := by
  unfold fireInitialReminderBody
  repeat' split
  all_goals simp_all
  all_goals
    first
      | exact keysNodup_del _ _ h
      | (split <;>
          first
            | exact keysNodup_set _ _ _ (keysNodup_del _ _ h)
            | exact keysNodup_del _ _ h)

theorem keysNodup_fireInit (cfg : Config) (type : String) (st : PState)
    (now : Time) (env : Env) (h : keysNodup st.pendingReminders) :
    keysNodup (fireInitialReminder cfg type st now env).st.pendingReminders := by
  unfold fireInitialReminder
  dsimp only
  split
  · exact keysNodup_fireInitBody cfg type st now env h
  · simpa using keysNodup_del _ _ (keysNodup_fireInitBody cfg type st now env h)

theorem keysNodup_fireFollow (cfg : Config) (type : String) (st : PState)
    (now : Time) (env : Env) (h : keysNodup st.pendingReminders) :
    keysNodup (fireFollowUpReminder cfg type st now env).st.pendingReminders := by
  unfold fireFollowUpReminder
  repeat' split
  all_goals first
    | exact h
    | simpa using keysNodup_del _ _ h

theorem keysNodup_applyOp (cfg : Config) (st : PState) (op : ReminderOp)
    (h : keysNodup st.pendingReminders) :
    keysNodup (applyReminderOp cfg st op).pendingReminders := by
  cases op with
  | arm t msg o n => exact keysNodup_schedule cfg t msg o st n h
  | cancel t => exact keysNodup_cancel t st h
  | cancelAll => exact keysNodup_cancelAll st
  | fireInit t n e => exact keysNodup_fireInit cfg t st n e h
  | fireFollow t n e => exact keysNodup_fireFollow cfg t st n e h

theorem keysNodup_applyOps (cfg : Config) (ops : List ReminderOp) (st : PState)
    (h : keysNodup st.pendingReminders) :
    keysNodup (applyReminderOps cfg ops st).pendingReminders := by
  induction ops generalizing st with
  | nil => exact h
  | cons op rest ih => exact ih _ (keysNodup_applyOp cfg st op h)

theorem cancel_nextTimerId (type : String) (st : PState) :
    (cancelPendingReminder type st).nextTimerId = st.nextTimerId := by
  unfold cancelPendingReminder
  split <;> rfl

theorem cancel_keep_batchP (type : String) (st : PState) :
    (cancelPendingReminder type st).pendingPermissionBatch = st.pendingPermissionBatch := by
  unfold cancelPendingReminder; split <;> rfl

theorem cancel_keep_timeoutP (type : String) (st : PState) :
    (cancelPendingReminder type st).permissionBatchTimeout = st.permissionBatchTimeout := by
  unfold cancelPendingReminder; split <;> rfl

theorem cancel_keep_batchQ (type : String) (st : PState) :
    (cancelPendingReminder type st).pendingQuestionBatch = st.pendingQuestionBatch := by
  unfold cancelPendingReminder; split <;> rfl

theorem cancel_keep_timeoutQ (type : String) (st : PState) :
    (cancelPendingReminder type st).questionBatchTimeout = st.questionBatchTimeout := by
  unfold cancelPendingReminder; split <;> rfl

theorem cancel_timers_sub (type : String) (st : PState) (tmr : Timer)
    (h : tmr ∈ (cancelPendingReminder type st).timers) : tmr ∈ st.timers := by
  unfold cancelPendingReminder at h
  revert h
  split
  · exact id
  · intro h
    dsimp only at h
    unfold clearTimeout at h
    exact (List.mem_filter.mp h).1

theorem schedule_keeps (cfg : Config) (type msg : String) (opts : ROptions)
    (st : PState) (now : Time) :
    (scheduleTTSReminder cfg type msg opts st now).activePermissionId
      = st.activePermissionId ∧
    (scheduleTTSReminder cfg type msg opts st now).activeQuestionId
      = st.activeQuestionId ∧
    (scheduleTTSReminder cfg type msg opts st now).pendingPermissionBatch
      = st.pendingPermissionBatch ∧
    (scheduleTTSReminder cfg type msg opts st now).permissionBatchTimeout
      = st.permissionBatchTimeout ∧
    (scheduleTTSReminder cfg type msg opts st now).pendingQuestionBatch
      = st.pendingQuestionBatch ∧
    (scheduleTTSReminder cfg type msg opts st now).questionBatchTimeout
      = st.questionBatchTimeout ∧
    (scheduleTTSReminder cfg type msg opts st now).lastUserActivityTime
      = st.lastUserActivityTime ∧
    (scheduleTTSReminder cfg type msg opts st now).seenUserMessageIds
      = st.seenUserMessageIds ∧
    (scheduleTTSReminder cfg type msg opts st now).lastSessionIdleTime
      = st.lastSessionIdleTime := by
  unfold scheduleTTSReminder cancelPendingReminder
  repeat' split
  all_goals simp

theorem processPermissionBatch_fires (cfg : Config) (st : PState) (now : Time) (env : Env)
    (hne : st.pendingPermissionBatch ≠ []) (htoast : cfg.enableToast = true) :
    toasts (processPermissionBatch cfg st now env).acts =
      [Action.toast (permissionToastMessage st.pendingPermissionBatch.length) "warning"] ∧
    Action.genMsg "permission" true st.pendingPermissionBatch.length ∈
      (processPermissionBatch cfg st now env).acts ∧
    (processPermissionBatch cfg st now env).st.pendingPermissionBatch = [] ∧
    (processPermissionBatch cfg st now env).st.permissionBatchTimeout = none := by
  unfold processPermissionBatch
  rw [if_neg (by simpa using hne)]
  repeat' split
  all_goals
    simp_all [toasts_append, toasts_cons, toasts_nil, toasts_logA, toasts_showToastA,
      toasts_playSoundA, Action.isToast, htoast, schedule_keeps, List.head?_eq_none_iff]

theorem processPermissionBatch_skips_empty (cfg : Config) (st : PState) (now : Time)
    (env : Env) (h : st.pendingPermissionBatch = []) :
    toasts (processPermissionBatch cfg st now env).acts = [] ∧
    renderActs (processPermissionBatch cfg st now env).acts = [] ∧
    (processPermissionBatch cfg st now env).raised = none := by
  unfold processPermissionBatch
  rw [h]
  exact ⟨toasts_logA cfg _, renderActs_logA cfg _, rfl⟩

theorem fireTimer_permissionBatch_fires (cfg : Config) (st : PState) (now : Time)
    (env : Env) (hne : st.pendingPermissionBatch ≠ []) (htoast : cfg.enableToast = true) :
    toasts (fireTimer cfg TimerKind.permissionBatch st now env).acts =
      [Action.toast (permissionToastMessage st.pendingPermissionBatch.length) "warning"] ∧
    Action.genMsg "permission" true st.pendingPermissionBatch.length ∈
      (fireTimer cfg TimerKind.permissionBatch st now env).acts ∧
    (fireTimer cfg TimerKind.permissionBatch st now env).st.pendingPermissionBatch = [] ∧
    (fireTimer cfg TimerKind.permissionBatch st now env).st.permissionBatchTimeout = none := by
  have hp := processPermissionBatch_fires cfg st now env hne htoast
  unfold fireTimer
  cases hr : (processPermissionBatch cfg st now env).raised with
  | none => simpa [hr] using hp
  | some e =>
    refine ⟨?_, ?_, ?_, ?_⟩ <;>
      simp_all [toasts_append, toasts_logA]

theorem fireTimer_permissionBatch_empty (cfg : Config) (st : PState) (now : Time)
    (env : Env) (h : st.pendingPermissionBatch = []) :
    toasts (fireTimer cfg TimerKind.permissionBatch st now env).acts = [] ∧
    renderActs (fireTimer cfg TimerKind.permissionBatch st now env).acts = [] := by
  have hp := processPermissionBatch_skips_empty cfg st now env h
  unfold fireTimer
  cases hr : (processPermissionBatch cfg st now env).raised with
  | none => simpa [hr] using ⟨hp.1, hp.2.1⟩
  | some e => simp_all

theorem handleEvent_permissionAsked_step (cfg : Config) (st : PState) (pid : String)
    (now : Time) (env : Env) (hne : pid ≠ "") :
    (handleEvent cfg st (Event.permissionAsked (some pid)) now env).st.pendingPermissionBatch =
      (if st.pendingPermissionBatch.contains pid then st.pendingPermissionBatch
       else st.pendingPermissionBatch ++ [pid]) ∧
    (handleEvent cfg st (Event.permissionAsked (some pid)) now env).st.permissionBatchTimeout =
      some st.nextTimerId := by
  unfold handleEvent handleEventBody handlePermissionAsked jsStr
  try dsimp only
  rw [if_neg hne]
  try dsimp only
  by_cases hc : pid ∈ st.pendingPermissionBatch
  · simp [hc]
  · simp [hc]

theorem foldPermissionAsked_batch (cfg : Config) (now : Time) (env : Env)
    (pids : List String) (st : PState)
    (hnodup : pids.Nodup) (hnn : ∀ p ∈ pids, p ≠ "")
    (hdisj : ∀ p ∈ pids, p ∉ st.pendingPermissionBatch) :
    (foldPermissionAsked cfg st pids now env).pendingPermissionBatch =
      st.pendingPermissionBatch ++ pids := by
  induction pids generalizing st with
  | nil => simp [foldPermissionAsked]
  | cons pid rest ih =>
    have hstep := handleEvent_permissionAsked_step cfg st pid now env (hnn pid (by simp))
    have hc : ¬ st.pendingPermissionBatch.contains pid = true := by
      simpa using hdisj pid (by simp)
    unfold foldPermissionAsked
    simp only [List.foldl_cons]
    have ihres := ih ((handleEvent cfg st (Event.permissionAsked (some pid)) now env).st)
      (List.Nodup.of_cons hnodup)
      (fun p hp => hnn p (List.mem_cons_of_mem _ hp))
      (fun p hp => by
        rw [hstep.1, if_neg hc]
        intro hmem
        rcases List.mem_append.mp hmem with hmem | hmem
        · exact hdisj p (List.mem_cons_of_mem _ hp) hmem
        · rcases List.mem_singleton.mp hmem with rfl
          exact (List.nodup_cons.mp hnodup).1 hp)
    unfold foldPermissionAsked at ihres
    rw [ihres, hstep.1, if_neg hc, List.append_assoc]
    simp

theorem handlePermissionReplied_batch (cfg : Config) (st : PState) (rid : String)
    (now : Time) (hne : rid ≠ "") :
    (handlePermissionReplied cfg st (some rid) none now).1.pendingPermissionBatch =
      st.pendingPermissionBatch.filter (fun i => i ≠ rid) := by
  unfold handlePermissionReplied jsStr
  try dsimp only
  rw [if_neg hne]
  try dsimp only
  by_cases hc : rid ∈ st.pendingPermissionBatch
  · have hcb : st.pendingPermissionBatch.contains rid = true := by simpa using hc
    rw [if_pos hcb]
    repeat' split
    all_goals simp_all [cancel_keep_batchP]
  · have hcb : ¬ st.pendingPermissionBatch.contains rid = true := by simpa using hc
    have hself : st.pendingPermissionBatch.filter (fun i => i ≠ rid) =
        st.pendingPermissionBatch :=
      List.filter_eq_self.mpr (fun x hx => by
        simp only [ne_eq, Bool.not_eq_true', decide_eq_false_iff_not, decide_not]
        intro hxe
        exact hc (hxe ▸ hx))
    rw [if_neg hcb, hself]
    repeat' split
    all_goals simp_all [cancel_keep_batchP]

theorem handleEvent_permissionReplied_window (cfg : Config) (st : PState) (rid : String)
    (now : Time) (env : Env) (bt : Nat) (hne : rid ≠ "")
    (hfull : st.pendingPermissionBatch.filter (fun i => i ≠ rid) = [])
    (hbt : st.permissionBatchTimeout = some bt) :
    (handleEvent cfg st
      (Event.permissionReplied (some rid) none) now env).st.permissionBatchTimeout = none ∧
    ∀ tmr ∈ (handleEvent cfg st
      (Event.permissionReplied (some rid) none) now env).st.timers, tmr.id ≠ bt := by
  unfold handleEvent handleEventBody handlePermissionReplied jsStr
  try dsimp only
  rw [if_neg hne]
  try dsimp only
  by_cases hc : rid ∈ st.pendingPermissionBatch
  · have hcb : st.pendingPermissionBatch.contains rid = true := by simpa using hc
    rw [if_pos hcb]
    try dsimp only
    rw [hfull, hbt]
    rw [if_pos (by simp)]
    try dsimp only
    constructor
    · rw [cancel_keep_timeoutP]
    · intro tmr hmem
      have h2 := cancel_timers_sub _ _ _ hmem
      dsimp only at h2
      unfold clearTimeout at h2
      have := (List.mem_filter.mp h2).2
      simpa using this
  · have hcb : ¬ st.pendingPermissionBatch.contains rid = true := by simpa using hc
    have hempty : st.pendingPermissionBatch = [] := by
      cases hbatch : st.pendingPermissionBatch with
      | nil => rfl
      | cons x xs =>
        have hx := List.filter_eq_nil_iff.mp (hbatch ▸ hfull) x (by simp)
        have hx2 : x = rid := by simpa using hx
        exact absurd (hx2 ▸ (by simp [hbatch] : x ∈ st.pendingPermissionBatch)) hc
    rw [if_neg hcb]
    try dsimp only
    rw [hempty, hbt]
    rw [if_pos (by simp)]
    try dsimp only
    constructor
    · rw [cancel_keep_timeoutP]
    · intro tmr hmem
      have h2 := cancel_timers_sub _ _ _ hmem
      dsimp only at h2
      unfold clearTimeout at h2
      have := (List.mem_filter.mp h2).2
      simpa using this

theorem handleEvent_permissionReplied_st (cfg : Config) (st : PState)
    (pID rID : Option String) (now : Time) (env : Env) :
    (handleEvent cfg st (Event.permissionReplied pID rID) now env).st =
      (handlePermissionReplied cfg st pID rID now).1 := by
  unfold handleEvent handleEventBody
  rcases h : handlePermissionReplied cfg st pID rID now with ⟨st1, acts⟩
  simp [h]

theorem processQuestionBatch_fires (cfg : Config) (st : PState) (now : Time) (env : Env)
    (hne : st.pendingQuestionBatch ≠ []) (htoast : cfg.enableToast = true) :
    toasts (processQuestionBatch cfg st now env).acts =
      [Action.toast (questionToastMessage (questionBatchTotal st.pendingQuestionBatch)) "info"] ∧
    Action.genMsg "question" true (questionBatchTotal st.pendingQuestionBatch) ∈
      (processQuestionBatch cfg st now env).acts ∧
    (processQuestionBatch cfg st now env).st.pendingQuestionBatch = [] ∧
    (processQuestionBatch cfg st now env).st.questionBatchTimeout = none := by
  unfold processQuestionBatch
  rw [if_neg (by simpa using hne)]
  repeat' split
  all_goals
    simp_all [toasts_append, toasts_cons, toasts_nil, toasts_logA, toasts_showToastA,
      toasts_playSoundA, Action.isToast, htoast, schedule_keeps, List.head?_eq_none_iff]

theorem fireTimer_questionBatch_fires (cfg : Config) (st : PState) (now : Time)
    (env : Env) (hne : st.pendingQuestionBatch ≠ []) (htoast : cfg.enableToast = true) :
    toasts (fireTimer cfg TimerKind.questionBatch st now env).acts =
      [Action.toast (questionToastMessage (questionBatchTotal st.pendingQuestionBatch)) "info"] ∧
    Action.genMsg "question" true (questionBatchTotal st.pendingQuestionBatch) ∈
      (fireTimer cfg TimerKind.questionBatch st now env).acts := by
  have hp := processQuestionBatch_fires cfg st now env hne htoast
  unfold fireTimer
  cases hr : (processQuestionBatch cfg st now env).raised with
  | none => simpa [hr] using ⟨hp.1, hp.2.1⟩
  | some e =>
    constructor <;> simp_all [toasts_append, toasts_logA]

theorem mem_foldl_clearTimeout (l : List (String × ReminderEntry)) (ts : List Timer)
    (tmr : Timer) (h : tmr ∈ ts) (hid : ∀ p ∈ l, tmr.id ≠ p.2.timeoutId) :
    tmr ∈ l.foldl (fun acc p => clearTimeout acc p.2.timeoutId) ts := by
  induction l generalizing ts with
  | nil => exact h
  | cons p rest ih =>
    simp only [List.foldl_cons]
    apply ih
    · unfold clearTimeout
      exact List.mem_filter.mpr ⟨h, by simpa using hid p (by simp)⟩
    · intro q hq
      exact hid q (by simp [hq])

/-- C1: the spec and the README promise follow-up reminders with
exponential backoff up to maxFollowUpReminders (default 3), follow-up k
firing 30 x 1.5 ^ k seconds after the prior render.  In the scenario
(idle at t = 0, delay 30 s, multiplier 1.5, no user activity) the code
renders the reminder at t = 30 s and the first follow-up at t = 75 s as
promised, but the follow-up callback chains nothing further: the run
terminates with no timer and no registry entry armed, so no second
follow-up ever fires at t = 142.5 s (142500 ms), contradicting the
claim for maxFollowUpReminders = 3. -/
theorem C1_followup_chain_truncated :
    speakTimes (runTimers testCfg 10 c1State []) = [30000, 75000] ∧
    ((142500 : Time) ∈ speakTimes (runTimers testCfg 10 c1State [])) = False ∧
    (runTimersFinal testCfg 10 c1State []).timers = [] ∧
    (runTimersFinal testCfg 10 c1State []).pendingReminders = [] := by
  refine ⟨by decide, by decide, by decide, by decide⟩

/-- C2: for every armed reminder whose entry is still registered, if
lastUserActivityTime has advanced past the entry scheduledAt at the
moment the timer fires, neither the initial reminder callback nor the
follow-up callback renders anything (no wake, no volume force, no
speech, no sound, no toast), the registry entry for that kind is
removed, and no exception escapes. -/
theorem C2_reminder_not_rendered_after_user_activity (cfg : Config) (type : String)
    (st : PState) (now : Time) (env : Env) (entry : ReminderEntry)
    (hget : RMap.get? st.pendingReminders type = some entry)
    (hact : st.lastUserActivityTime > entry.scheduledAt) :
    (renderActs (fireInitialReminder cfg type st now env).acts = [] ∧
     RMap.get? (fireInitialReminder cfg type st now env).st.pendingReminders type = none ∧
     (fireInitialReminder cfg type st now env).raised = none) ∧
    (renderActs (fireFollowUpReminder cfg type st now env).acts = [] ∧
     RMap.get? (fireFollowUpReminder cfg type st now env).st.pendingReminders type = none ∧
     (fireFollowUpReminder cfg type st now env).raised = none) := by
  have hbody : fireInitialReminderBody cfg type st now env =
      { st := { st with pendingReminders := RMap.del st.pendingReminders type },
        acts := logA cfg "skipped - user active since notification",
        env := env, raised := none } := by
    unfold fireInitialReminderBody
    rw [hget]
    dsimp only
    rw [if_pos hact]
  have hfu : fireFollowUpReminder cfg type st now env =
      { st := { st with pendingReminders := RMap.del st.pendingReminders type },
        acts := [], env := env, raised := none } := by
    unfold fireFollowUpReminder
    rw [hget]
    dsimp only
    rw [if_pos hact]
  have hinit : fireInitialReminder cfg type st now env =
      { st := { st with pendingReminders := RMap.del st.pendingReminders type },
        acts := logA cfg "skipped - user active since notification",
        env := env, raised := none } := by
    unfold fireInitialReminder
    rw [hbody]
  refine ⟨⟨?_, ?_, ?_⟩, ⟨?_, ?_, ?_⟩⟩ <;>
    simp [hinit, hfu, renderActs_logA, renderActs_nil, RMap.get?_del_self]

/-- C2 witness: in a concrete state whose idle reminder was scheduled
at t = 10 while the user last acted at t = 20, neither callback renders
and the entry is removed. -/
theorem C2_reminder_not_rendered_after_user_activity_witness :
    renderActs (fireInitialReminder testCfg "idle" c2WState 30000 []).acts = [] ∧
    RMap.get? (fireInitialReminder testCfg "idle" c2WState 30000 []).st.pendingReminders
      "idle" = none ∧
    renderActs (fireFollowUpReminder testCfg "idle" c2WState 30000 []).acts = [] :=
  ⟨(C2_reminder_not_rendered_after_user_activity testCfg "idle" c2WState 30000 []
      ⟨0, 10, 0, 1⟩ (by decide) (by decide)).1.1,
   (C2_reminder_not_rendered_after_user_activity testCfg "idle" c2WState 30000 []
      ⟨0, 10, 0, 1⟩ (by decide) (by decide)).1.2.1,
   (C2_reminder_not_rendered_after_user_activity testCfg "idle" c2WState 30000 []
      ⟨0, 10, 0, 1⟩ (by decide) (by decide)).2.1⟩

/-- C3: for every sequence of permission-asked events with distinct
nonempty ids arriving within one debounce window over an empty batch,
the batch accumulates exactly those ids; when the window timer fires,
exactly one toast is emitted and it carries the number of distinct ids,
the count-aware reminder message is requested with that same count, and
the batch and window handle are cleared, so firing again renders
nothing; re-adding an id already in the batch leaves the batch
unchanged. -/
theorem C3_permission_batch_single_notification (cfg : Config) (pids : List String)
    (st0 : PState) (now now2 now3 : Time) (env env2 env3 : Env)
    (hnodup : pids.Nodup) (hne : pids ≠ []) (hnn : ∀ p ∈ pids, p ≠ "")
    (hempty : st0.pendingPermissionBatch = []) (htoast : cfg.enableToast = true) :
    (foldPermissionAsked cfg st0 pids now env).pendingPermissionBatch = pids ∧
    toasts (fireTimer cfg TimerKind.permissionBatch
        (foldPermissionAsked cfg st0 pids now env) now2 env2).acts =
      [Action.toast (permissionToastMessage pids.length) "warning"] ∧
    Action.genMsg "permission" true pids.length ∈
      (fireTimer cfg TimerKind.permissionBatch
        (foldPermissionAsked cfg st0 pids now env) now2 env2).acts ∧
    (fireTimer cfg TimerKind.permissionBatch
        (foldPermissionAsked cfg st0 pids now env) now2 env2).st.pendingPermissionBatch = [] ∧
    (fireTimer cfg TimerKind.permissionBatch
        (foldPermissionAsked cfg st0 pids now env) now2 env2).st.permissionBatchTimeout
      = none ∧
    toasts (fireTimer cfg TimerKind.permissionBatch
        (fireTimer cfg TimerKind.permissionBatch
          (foldPermissionAsked cfg st0 pids now env) now2 env2).st now3 env3).acts = [] ∧
    renderActs (fireTimer cfg TimerKind.permissionBatch
        (fireTimer cfg TimerKind.permissionBatch
          (foldPermissionAsked cfg st0 pids now env) now2 env2).st now3 env3).acts = [] ∧
    (∀ pid ∈ pids,
      (handleEvent cfg (foldPermissionAsked cfg st0 pids now env)
        (Event.permissionAsked (some pid)) now2 env2).st.pendingPermissionBatch = pids) := by
  have hfold : (foldPermissionAsked cfg st0 pids now env).pendingPermissionBatch = pids := by
    rw [foldPermissionAsked_batch cfg now env pids st0 hnodup hnn (by simp [hempty]), hempty]
    simp
  have hbatchne : (foldPermissionAsked cfg st0 pids now env).pendingPermissionBatch ≠ [] := by
    rw [hfold]; exact hne
  have hfire := fireTimer_permissionBatch_fires cfg _ now2 env2 hbatchne htoast
  rw [hfold] at hfire
  have hemptyfire := fireTimer_permissionBatch_empty cfg _ now3 env3 hfire.2.2.1
  refine ⟨hfold, hfire.1, hfire.2.1, hfire.2.2.1, hfire.2.2.2, hemptyfire.1, hemptyfire.2, ?_⟩
  intro pid hpid
  rw [(handleEvent_permissionAsked_step cfg _ pid now2 env2 (hnn pid hpid)).1]
  simp [hfold, hpid]

/-- C3 witness: two distinct permission ids arrive in one window;
the batch holds both, and at expiry the one toast carries count 2. -/
theorem C3_permission_batch_single_notification_witness :
    (foldPermissionAsked testCfg (initState 0) ["a", "b"] 0 []).pendingPermissionBatch
      = ["a", "b"] ∧
    toasts (fireTimer testCfg TimerKind.permissionBatch
        (foldPermissionAsked testCfg (initState 0) ["a", "b"] 0 []) 800 []).acts =
      [Action.toast (permissionToastMessage 2) "warning"] :=
  ⟨(C3_permission_batch_single_notification testCfg ["a", "b"] (initState 0) 0 800 900
      [] [] [] (by decide) (by decide) (by decide) (by decide) (by decide)).1,
   (C3_permission_batch_single_notification testCfg ["a", "b"] (initState 0) 0 800 900
      [] [] [] (by decide) (by decide) (by decide) (by decide) (by decide)).2.1⟩

/-- C4: a permission-replied event for an id removes that id from the
pending batch (and leaves the batch unchanged if the id is not in it),
so the id is excluded from the eventual count; if the batch thereby
becomes empty while the window timer is armed, the window handle is
cleared and the armed window timer is disarmed, and processing an empty
batch emits no toast and renders nothing. -/
theorem C4_permission_reply_excluded_from_batch (cfg : Config) (st : PState)
    (rid : String) (now : Time) (env : Env) (hne : rid ≠ "") :
    (handleEvent cfg st
        (Event.permissionReplied (some rid) none) now env).st.pendingPermissionBatch =
      st.pendingPermissionBatch.filter (fun i => i ≠ rid) ∧
    (∀ bt : Nat, st.pendingPermissionBatch.filter (fun i => i ≠ rid) = [] →
      st.permissionBatchTimeout = some bt →
      (handleEvent cfg st
          (Event.permissionReplied (some rid) none) now env).st.permissionBatchTimeout
        = none ∧
      ∀ tmr ∈ (handleEvent cfg st
          (Event.permissionReplied (some rid) none) now env).st.timers, tmr.id ≠ bt) ∧
    (∀ st2 : PState, st2.pendingPermissionBatch = [] →
      toasts (fireTimer cfg TimerKind.permissionBatch st2 now env).acts = [] ∧
      renderActs (fireTimer cfg TimerKind.permissionBatch st2 now env).acts = []) := by
  refine ⟨?_, ?_, fun st2 h2 => fireTimer_permissionBatch_empty cfg st2 now env h2⟩
  · rw [handleEvent_permissionReplied_st]
    exact handlePermissionReplied_batch cfg st rid now hne
  · intro bt hfull hbt
    exact handleEvent_permissionReplied_window cfg st rid now env bt hne hfull hbt

/-- C4 witness: with x the only pending permission and its window
armed, a reply to x empties the batch and clears the window handle. -/
theorem C4_permission_reply_excluded_from_batch_witness :
    (handleEvent testCfg c4WState
        (Event.permissionReplied (some "x") none) 100 []).st.pendingPermissionBatch = [] ∧
    (handleEvent testCfg c4WState
        (Event.permissionReplied (some "x") none) 100 []).st.permissionBatchTimeout = none := by
  have h1 := (C4_permission_reply_excluded_from_batch testCfg c4WState "x" 100 []
    (by decide)).1
  have h2 := ((C4_permission_reply_excluded_from_batch testCfg c4WState "x" 100 []
    (by decide)).2.1 5 (by decide) (by decide)).1
  exact ⟨by simpa using h1, h2⟩

/-- C5: a question batch notification carries the sum of questionCount
over the entries remaining at window expiry: in general the single
toast and the count-aware message request both carry
questionBatchTotal of the batch, and in the concrete scenario (q1 with
1 sub-question at t = 0, q2 with 3 sub-questions at t = 300 ms, q1
replied at t = 500 ms, window 800 ms) the single notification at
t = 1100 ms reports 3, not 4. -/
theorem C5_question_batch_count_sums_remaining (cfg : Config) (st : PState)
    (now : Time) (env : Env)
    (hne : st.pendingQuestionBatch ≠ []) (htoast : cfg.enableToast = true) :
    (toasts (fireTimer cfg TimerKind.questionBatch st now env).acts =
      [Action.toast (questionToastMessage (questionBatchTotal st.pendingQuestionBatch))
        "info"] ∧
     Action.genMsg "question" true (questionBatchTotal st.pendingQuestionBatch) ∈
      (fireTimer cfg TimerKind.questionBatch st now env).acts) ∧
    (c5State.pendingQuestionBatch = [⟨"q2", 3⟩] ∧
     questionBatchTotal c5State.pendingQuestionBatch = 3 ∧
     runTimers testCfg 1 c5State [] =
       [(1100, Action.toast "The agent has 3 questions for you" "info"),
        (1100, Action.wakeMonitor), (1100, Action.forceVolume),
        (1100, Action.playSound "question.wav" 2),
        (1100, Action.genMsg "question" true 3)]) := by
  refine ⟨fireTimer_questionBatch_fires cfg st now env hne htoast, ?_, ?_, ?_⟩
  · decide
  · decide
  · decide

/-- C5 witness: firing the question window of the scenario state emits
the single count-3 toast. -/
theorem C5_question_batch_count_sums_remaining_witness :
    toasts (fireTimer testCfg TimerKind.questionBatch c5State 1100 []).acts =
      [Action.toast (questionToastMessage (questionBatchTotal c5State.pendingQuestionBatch))
        "info"] :=
  ((C5_question_batch_count_sums_remaining testCfg c5State 1100 []
    (by decide) (by decide)).1).1

/-- C6: the reminder registry holds at most one live entry per kind
after any sequence of arm, cancel and fire operations starting from the
initial state; arming replaces any existing entry of that kind with the
fresh one (scheduledAt now, followUpCount 0, the item count from the
options), and the replaced entry timer handle is disarmed. -/
theorem C6_at_most_one_reminder_per_kind (cfg : Config) :
    (∀ (ops : List ReminderOp) (now0 : Time),
      keysNodup (applyReminderOps cfg ops (initState now0)).pendingReminders) ∧
    (∀ (st : PState) (type msg : String) (opts : ROptions) (now : Time),
      cfg.enableTTSReminder = true →
      RMap.get? (scheduleTTSReminder cfg type msg opts st now).pendingReminders type =
        some ⟨st.nextTimerId, now, 0,
          jsOrNat opts.permissionCount (jsOrNat opts.questionCount 1)⟩) ∧
    (∀ (st : PState) (type msg : String) (opts : ROptions) (now : Time)
        (e : ReminderEntry),
      cfg.enableTTSReminder = true →
      RMap.get? st.pendingReminders type = some e →
      e.timeoutId ≠ st.nextTimerId →
      ∀ tmr ∈ (scheduleTTSReminder cfg type msg opts st now).timers,
        tmr.id ≠ e.timeoutId) := by
  refine ⟨?_, ?_, ?_⟩
  · intro ops now0
    exact keysNodup_applyOps cfg ops _ (by simp [initState, keysNodup, RMap.keys])
  · intro st type msg opts now he
    unfold scheduleTTSReminder
    rw [if_neg (by simp [he])]
    simpa [cancel_nextTimerId] using
      RMap.get?_set_self (cancelPendingReminder type st).pendingReminders type
        ⟨(cancelPendingReminder type st).nextTimerId, now, 0,
          jsOrNat opts.permissionCount (jsOrNat opts.questionCount 1)⟩
  · intro st type msg opts now e he hget hid tmr hmem
    unfold scheduleTTSReminder at hmem
    rw [if_neg (by simp [he])] at hmem
    dsimp only at hmem
    rcases List.mem_append.mp hmem with hmem | hmem
    · unfold cancelPendingReminder at hmem
      rw [hget] at hmem
      dsimp only at hmem
      unfold clearTimeout at hmem
      have := (List.mem_filter.mp hmem).2
      simpa using this
    · rcases List.mem_singleton.mp hmem with rfl
      simpa [cancel_nextTimerId] using fun h => hid h.symm

/-- C6 witness: arming idle twice from the initial state keeps one
entry, and arming at t = 3 stores the fresh entry under the new timer
handle. -/
theorem C6_at_most_one_reminder_per_kind_witness :
    keysNodup (applyReminderOps testCfg
      [ReminderOp.arm "idle" "m" noOpts 0, ReminderOp.arm "idle" "m2" noOpts 5]
      (initState 0)).pendingReminders ∧
    RMap.get? (scheduleTTSReminder testCfg "idle" "m" noOpts
      (initState 0) 3).pendingReminders "idle" = some ⟨0, 3, 0, 1⟩ :=
  ⟨(C6_at_most_one_reminder_per_kind testCfg).1
      [ReminderOp.arm "idle" "m" noOpts 0, ReminderOp.arm "idle" "m2" noOpts 5] 0,
   (C6_at_most_one_reminder_per_kind testCfg).2.1 (initState 0) "idle" "m" noOpts 3
      (by decide)⟩

/-- C7: the spec claims every error while generating or rendering a
reminder message is caught locally with the entry removed, for the
initial reminder and the chained follow-up alike.  The initial
callback indeed catches and removes the entry, but the follow-up
callback has no try/catch: when message generation throws at the
failing input (a due permission follow-up whose generator raises), the
exception escapes as an unhandled rejection and the registry entry
survives, contradicting the claim. -/
theorem C7_followup_error_escapes_uncaught :
    (fireFollowUpReminder testCfg "permission" c7State 45000 [Except.error "boom"]).raised
        = some "boom" ∧
    RMap.get? (fireFollowUpReminder testCfg "permission" c7State 45000
        [Except.error "boom"]).st.pendingReminders "permission" = some ⟨0, 0, 1, 2⟩ ∧
    (fireInitialReminder testCfg "permission" c7State 45000 [Except.error "boom"]).raised
        = none ∧
    RMap.get? (fireInitialReminder testCfg "permission" c7State 45000
        [Except.error "boom"]).st.pendingReminders "permission" = none := by
  refine ⟨by decide, by decide, by decide, by decide⟩

/-- C8: the event handler never raises: for every inbound event, every
machine state and every outcome of the fallible message-generation and
speech calls, handleEvent returns normally (the try/catch wrapping the
whole handler body swallows any exception). -/
theorem C8_event_handler_never_raises (cfg : Config) (st : PState) (ev : Event)
    (now : Time) (env : Env) : (handleEvent cfg st ev now env).raised = none := by
  unfold handleEvent
  dsimp only
  split
  · assumption
  · rfl

/-- C9: a user-message event whose id is already in the seen set leaves
the whole orchestrator state unchanged (in particular it advances no
activity time and cancels no reminder) and renders nothing, even when
its role is user and it arrives after the session went idle. -/
theorem C9_seen_message_edit_is_noop (cfg : Config) (st : PState) (now : Time) (env : Env)
    (mid : String) (created : Option Time)
    (hmem : st.seenUserMessageIds.contains mid = true) (hne : mid ≠ "") :
    (handleEvent cfg st (Event.messageUpdated (some mid) "user" created) now env).st = st ∧
    renderActs (handleEvent cfg st
      (Event.messageUpdated (some mid) "user" created) now env).acts = [] := by
  have hb : handleMessageUpdated cfg st (some mid) "user" created now =
      (st, logA cfg "Ignored: update to existing user message - not new activity") := by
    unfold handleMessageUpdated jsStr
    try dsimp only
    rw [if_neg hne]
    try dsimp only
    rw [if_pos rfl]
    try dsimp only
    rw [if_neg (by simpa using hmem)]
  constructor <;>
    simp [handleEvent, handleEventBody, hb, renderActs_logA]

/-- C9 witness: an edit of the already-seen post-idle message m1 leaves
the concrete state untouched. -/
theorem C9_seen_message_edit_is_noop_witness :
    (handleEvent testCfg c9WState
      (Event.messageUpdated (some "m1") "user" (some 9)) 9000 []).st = c9WState :=
  (C9_seen_message_edit_is_noop testCfg c9WState 9000 [] "m1" (some 9)
    (by decide) (by decide)).1

/-- C10: a new post-idle user message advances lastUserActivityTime to
now and empties the reminder registry, but leaves both pending batch
collections, both window handles, and both active-request markers
unchanged; every armed timer whose handle is not a registered reminder
timeout (in particular the batch window timers) stays armed, and a
nonempty permission batch still produces its one count-carrying toast
when its window fires afterwards. -/
theorem C10_post_idle_message_preserves_batches (cfg : Config) (st : PState)
    (mid : String) (t now now2 : Time) (env env2 : Env)
    (hnew : mid ∉ st.seenUserMessageIds) (hne : mid ≠ "")
    (hidle : (0 : Time) < st.lastSessionIdleTime)
    (htz : t.isZero = false)
    (hafter : st.lastSessionIdleTime < t * 1000) :
    (handleEvent cfg st (Event.messageUpdated (some mid) "user" (some t)) now
        env).st.lastUserActivityTime = now ∧
    (handleEvent cfg st (Event.messageUpdated (some mid) "user" (some t)) now
        env).st.pendingReminders = [] ∧
    (handleEvent cfg st (Event.messageUpdated (some mid) "user" (some t)) now
        env).st.seenUserMessageIds = st.seenUserMessageIds ++ [mid] ∧
    (handleEvent cfg st (Event.messageUpdated (some mid) "user" (some t)) now
        env).st.pendingPermissionBatch = st.pendingPermissionBatch ∧
    (handleEvent cfg st (Event.messageUpdated (some mid) "user" (some t)) now
        env).st.permissionBatchTimeout = st.permissionBatchTimeout ∧
    (handleEvent cfg st (Event.messageUpdated (some mid) "user" (some t)) now
        env).st.pendingQuestionBatch = st.pendingQuestionBatch ∧
    (handleEvent cfg st (Event.messageUpdated (some mid) "user" (some t)) now
        env).st.questionBatchTimeout = st.questionBatchTimeout ∧
    (handleEvent cfg st (Event.messageUpdated (some mid) "user" (some t)) now
        env).st.activePermissionId = st.activePermissionId ∧
    (handleEvent cfg st (Event.messageUpdated (some mid) "user" (some t)) now
        env).st.activeQuestionId = st.activeQuestionId ∧
    (∀ tmr ∈ st.timers, (∀ p ∈ st.pendingReminders, tmr.id ≠ p.2.timeoutId) →
      tmr ∈ (handleEvent cfg st
        (Event.messageUpdated (some mid) "user" (some t)) now env).st.timers) ∧
    (st.pendingPermissionBatch ≠ [] → cfg.enableToast = true →
      toasts (fireTimer cfg TimerKind.permissionBatch
        (handleEvent cfg st
          (Event.messageUpdated (some mid) "user" (some t)) now env).st now2 env2).acts =
        [Action.toast (permissionToastMessage st.pendingPermissionBatch.length)
          "warning"]) := by
  have hb : (handleEvent cfg st
      (Event.messageUpdated (some mid) "user" (some t)) now env).st =
      cancelAllPendingReminders
        { st with seenUserMessageIds := st.seenUserMessageIds ++ [mid],
                  lastUserActivityTime := now } := by
    unfold handleEvent handleEventBody handleMessageUpdated jsStr
    try dsimp only
    rw [if_neg hne]
    try dsimp only
    rw [if_pos rfl]
    try dsimp only
    rw [if_pos (by simpa using hnew)]
    have hAI : (decide (st.lastSessionIdleTime > 0) &&
        (!t.isZero && decide (t * 1000 > st.lastSessionIdleTime))) = true := by
      simp [hidle, htz, hafter]
    rw [hAI]
    try dsimp only
    rfl
  rw [hb]
  unfold cancelAllPendingReminders
  refine ⟨rfl, rfl, rfl, rfl, rfl, rfl, rfl, rfl, rfl, ?_, ?_⟩
  · intro tmr hmem hid
    exact mem_foldl_clearTimeout st.pendingReminders st.timers tmr hmem hid
  · intro hbne htoast
    have hfires := fireTimer_permissionBatch_fires cfg
      (cancelAllPendingReminders
        { st with seenUserMessageIds := st.seenUserMessageIds ++ [mid],
                  lastUserActivityTime := now }) now2 env2
      (by simpa [cancelAllPendingReminders] using hbne) htoast
    simpa [cancelAllPendingReminders] using hfires.1

/-- C10 witness: in a post-idle state with a pending permission batch
and an armed idle reminder, a fresh user message created after idle
advances the activity time, clears the reminders and leaves the batch
intact. -/
theorem C10_post_idle_message_preserves_batches_witness :
    (handleEvent testCfg c10WState
        (Event.messageUpdated (some "m9") "user" (some 1)) 1000 []).st.lastUserActivityTime
      = 1000 ∧
    (handleEvent testCfg c10WState
        (Event.messageUpdated (some "m9") "user" (some 1)) 1000 []).st.pendingReminders
      = [] ∧
    (handleEvent testCfg c10WState
        (Event.messageUpdated (some "m9") "user" (some 1)) 1000
          []).st.pendingPermissionBatch = ["p"] :=
  ⟨(C10_post_idle_message_preserves_batches testCfg c10WState "m9" 1 1000 0 [] []
      (by decide) (by decide) (by decide) (by decide) (by decide)).1,
   (C10_post_idle_message_preserves_batches testCfg c10WState "m9" 1 1000 0 [] []
      (by decide) (by decide) (by decide) (by decide) (by decide)).2.1,
   (C10_post_idle_message_preserves_batches testCfg c10WState "m9" 1 1000 0 [] []
      (by decide) (by decide) (by decide) (by decide) (by decide)).2.2.2.1⟩

end SmartVoiceNotify
